import Mathlib

/-!
Shallow embedding of `kapetacom/sdk-go-rest-client` (Go).

The repository has two parts:
* `utils.go` — `StructToQueryParams`, a reflection-driven encoder from a flat
  Go struct to a URL query string (`url.Values` + `Encode`).
* `client.go` — `RestClient` with one-time initialization against a pluggable
  `ConfigProvider`, URL resolution by `fmt.Sprintf`, HTTP verb helpers that
  build a request, apply caller-supplied modifiers and dispatch it, and the
  `QueryParameterRequestModifier` helper.

Go runtime features are modelled explicitly: reflection operates on an
inductive `GoData` universe of flat records of scalars (the only shapes the
package's query encoder supports, per its contract); `panic` is a distinct
result constructor; machine integers are `Int`/`Nat`.
-/

/-- A scalar Go value as it can appear in a struct field relevant to this
package: strings, (signed) integers and booleans. -/
inductive FieldVal where
  | vStr (s : String)
  | vInt (n : Int)
  | vBool (b : Bool)
deriving DecidableEq, Repr

/-- `fmt.Sprintf("%v", x)` for the scalar values above: a string prints
verbatim, an int in decimal (with `-` when negative), a bool as
`true`/`false`. -/
def fmtV : FieldVal → String
  | .vStr s => s
  | .vInt n => toString n
  | .vBool b => cond b "true" "false"

/-- Go's name of the dynamic type, as `fmt` prints it in `%!verb(type=value)`
diagnostics. -/
def goTypeName : FieldVal → String
  | .vStr _ => "string"
  | .vInt _ => "int"
  | .vBool _ => "bool"

/-- One field of a Go struct: its identifier, the value of its `query` struct
tag (`""` when the tag is absent, which is what `reflect.StructTag.Get`
returns), and its scalar value. -/
structure GoField where
  name : String
  tag : String
  val : FieldVal
deriving DecidableEq, Repr

/-- A Go field is exported iff its identifier starts with an upper-case
letter; `reflect.Value.Interface` panics on unexported fields. -/
def goExported (name : String) : Bool :=
  match name.toList with
  | [] => false
  | c :: _ => c.isUpper

/-- The universe of Go values `StructToQueryParams` can receive through its
`interface{}` parameter in this package: a scalar, a flat struct, or a
pointer (possibly nil). -/
inductive GoData where
  | prim (v : FieldVal)
  | struct (fields : List GoField)
  | ptr (target : Option GoData)
deriving Repr

/-- Go's `strings.ToLower` restricted to ASCII (the case arising for Go
identifiers and the addresses in this package). -/
def goToLower (s : String) : String :=
  String.mk (s.data.map Char.toLower)

/-- UTF-8 encoding of one character, as the list of its byte values. -/
def utf8Bytes (c : Char) : List Nat :=
  let n := c.toNat
  if n < 0x80 then [n]
  else if n < 0x800 then
    [0xC0 + n / 0x40, 0x80 + n % 0x40]
  else if n < 0x10000 then
    [0xE0 + n / 0x1000, 0x80 + n / 0x40 % 0x40, 0x80 + n % 0x40]
  else
    [0xF0 + n / 0x40000, 0x80 + n / 0x1000 % 0x40, 0x80 + n / 0x40 % 0x40,
      0x80 + n % 0x40]

/-- Bytes Go's `url.QueryEscape` leaves untouched in a query component:
ASCII alphanumerics and `-`, `_`, `.`, `~`. -/
def isUnreservedByte (n : Nat) : Bool :=
  (65 ≤ n && n ≤ 90) || (97 ≤ n && n ≤ 122) || (48 ≤ n && n ≤ 57) ||
    n = 45 || n = 95 || n = 46 || n = 126

/-- Upper-case hex digit, as Go's `url` package emits in `%XX` escapes. -/
def hexUpper (n : Nat) : Char :=
  if n < 10 then Char.ofNat (48 + n) else Char.ofNat (55 + n)

/-- How `url.QueryEscape` renders one byte: space becomes `+`, unreserved
bytes pass through, everything else becomes `%XX`. -/
def escapeByte (n : Nat) : String :=
  if n = 32 then "+"
  else if isUnreservedByte n then String.singleton (Char.ofNat n)
  else "%" ++ String.singleton (hexUpper (n / 16)) ++ String.singleton (hexUpper (n % 16))

/-- Go's `url.QueryEscape`: escape the UTF-8 bytes of the string one by
one. -/
def queryEscape (s : String) : String :=
  String.join ((s.toList.map utf8Bytes).flatten.map escapeByte)

/-- Byte-wise (here: codepoint-wise, which UTF-8 order preserves) strict
lexicographic comparison of strings, as `sort.Strings` orders Go map keys. -/
def charListLt : List Char → List Char → Bool
  | [], [] => false
  | [], _ :: _ => true
  | _ :: _, [] => false
  | a :: as, b :: bs =>
    if a.toNat < b.toNat then true
    else if b.toNat < a.toNat then false
    else charListLt as bs

/-- Non-strict string order used by the sorting model. -/
def strLe (a b : String) : Bool :=
  !charListLt b.toList a.toList

/-- Insert into a list sorted by a string key, keeping existing elements with
an equal key in front (stable). -/
def insertByKey (key : α → String) (x : α) : List α → List α
  | [] => [x]
  | y :: ys => if strLe (key x) (key y) then x :: y :: ys else y :: insertByKey key x ys

/-- Stable insertion sort by a string key; models `sort.Strings` over the
(distinct) keys of a `url.Values` map. -/
def sortByKey (key : α → String) : List α → List α
  | [] => []
  | x :: xs => insertByKey key x (sortByKey key xs)

/-- `url.Values.Add`: the map from keys to the list of values added under
them, represented as an association list in first-insertion order. -/
def valuesAdd (m : List (String × List String)) (k v : String) :
    List (String × List String) :=
  match m with
  | [] => [(k, [v])]
  | (k', vs) :: rest =>
    if k' = k then (k', vs ++ [v]) :: rest else (k', vs) :: valuesAdd rest k v

/-- `url.Values.Encode`: sort the keys, then emit
`escape(key)=escape(value)` for every value under every key, joined by
`&`. -/
def valuesEncode (m : List (String × List String)) : String :=
  String.intercalate "&"
    (((sortByKey Prod.fst m).map
      (fun p => p.2.map (fun v => queryEscape p.1 ++ "=" ++ queryEscape v))).flatten)

/-- Outcome of `StructToQueryParams`: the returned `(string, error)` pair
(`ok` for a nil error, `err` carrying the partial string and the error
message) or a runtime panic. -/
inductive QueryResult where
  | ok (s : String)
  | err (partialOut : String) (msg : String)
  | panicked (msg : String)
deriving DecidableEq, Repr

/-- The message of the panic `reflect.Value.Interface` raises on an
unexported field. -/
def interfacePanicMsg : String :=
  "reflect.Value.Interface: cannot return value obtained from unexported field or method"

/-- The field loop of `StructToQueryParams`: for each field, take the `query`
tag as key or else the lower-cased identifier, render the value with `%v`
(panicking on an unexported field, as `reflect.Value.Interface` does), `Add`
it to the `url.Values`, and finally `Encode`. -/
def structLoop : List GoField → List (String × List String) → QueryResult
  | [], acc => .ok (valuesEncode acc)
  | f :: rest, acc =>
    let fieldName := if f.tag = "" then goToLower f.name else f.tag
    if goExported f.name then
      structLoop rest (valuesAdd acc fieldName (fmtV f.val))
    else
      .panicked interfacePanicMsg

/-- `StructToQueryParams` (utils.go): dereference a pointer once; if the
result is not a struct return `("", error "input data must be a struct")`;
otherwise run the field loop and `Encode`. -/
def StructToQueryParams (data : GoData) : QueryResult :=
  let v : Option GoData :=
    match data with
    | .ptr target => target
    | g => some g
  match v with
  | some (.struct fields) => structLoop fields []
  | _ => .err "" "input data must be a struct"

example : StructToQueryParams
    (.struct [⟨"Name", "name", .vStr "john"⟩, ⟨"Age", "age", .vInt 25⟩]) =
    .ok "age=25&name=john" := by decide

example : StructToQueryParams
    (.struct [⟨"Name", "", .vStr "john"⟩, ⟨"Age", "", .vInt 25⟩]) =
    .ok "age=25&name=john" := by decide

example : StructToQueryParams (.prim (.vStr "not a struct")) =
    .err "" "input data must be a struct" := by decide

/-- An address resolver: the fragment of `providers.ConfigProvider` this
package consumes, `GetServiceAddress(serviceName, portType) (string, error)`.
-/
def Provider : Type :=
  String → String → Except String String

/-- The fixed port type constant `serviceType = "rest"` of client.go. -/
def serviceType : String := "rest"

/-- The state of a `RestClient` (client.go): resolved base URL, resource
name, and the one-shot readiness flag. The `sync.Mutex` only serializes the
initialization transition and has no observable content in this sequential
model. -/
structure RestClient where
  BaseURL : String
  resourceName : String
  ready : Bool
deriving DecidableEq, Repr

/-- `NewRestClient`: all fields but the resource name start at their Go zero
values. The `autoInit` flag only registers `init` as an `OnReady` callback
with the process-wide config singleton; the returned value is the same
either way, and the deferred callback is the same `init` modelled below. -/
def NewRestClient (resourceName : String) (autoInit : Bool) : RestClient :=
  let _ := autoInit
  { BaseURL := "", resourceName := resourceName, ready := false }

/-- Go's `strings.HasSuffix`, over the character lists of the strings. -/
def goEndsWith (s suffix : String) : Bool :=
  decide (suffix.data.length ≤ s.data.length) &&
    s.data.drop (s.data.length - suffix.data.length) == suffix.data

/-- Go's `strings.TrimSuffix`: remove one trailing occurrence of `suffix`
when present. -/
def goTrimSuffix (s suffix : String) : String :=
  if goEndsWith s suffix then
    String.mk (s.data.take (s.data.length - suffix.data.length))
  else s

/-- Outcome of `(*RestClient).init`: the updated client, or a panic. -/
inductive InitResult where
  | ok (c : RestClient)
  | panicked (msg : String)
deriving DecidableEq, Repr

/-- `(*RestClient).init`: panic when already initialized; resolve
`GetServiceAddress(resourceName, "rest")`, panicking on a resolver error;
otherwise store the address lower-cased with one trailing `/` stripped and
mark the client ready. -/
def RestClient.init (c : RestClient) (provider : Provider) : InitResult :=
  if c.ready then
    .panicked "Client already initialized"
  else
    match provider c.resourceName serviceType with
    | .error e =>
      .panicked ("Error getting service address for " ++ c.resourceName ++ ": " ++ e)
    | .ok service =>
      .ok { c with BaseURL := goTrimSuffix (goToLower service) "/", ready := true }

/-- `WithConfigProvider` simply runs `init` on the given provider (and
returns the client for fluent chaining). -/
def RestClient.WithConfigProvider (c : RestClient) (provider : Provider) : InitResult :=
  c.init provider

/-- The `OnReady` callback registered by `NewRestClient` when `autoInit` is
set: its body is exactly `client.init(config)`. -/
def autoInitCallback (c : RestClient) (provider : Provider) : InitResult :=
  c.init provider

/-- The `%!(EXTRA type=value, ...)` suffix `fmt` appends when operands are
left over after the format string is exhausted. -/
def extraSuffix (args : List FieldVal) : String :=
  if args.isEmpty then ""
  else
    "%!(EXTRA " ++
      String.intercalate ", " (args.map (fun a => goTypeName a ++ "=" ++ fmtV a)) ++ ")"

/-- One `fmt` verb applied to one operand: `%v` is the natural form, `%s`
and `%d` print strings and ints and fall back to `%!verb(type=value)` on a
mismatch, as does any verb outside the fragment this package uses. -/
def applyVerb (verb : Char) (v : FieldVal) : String :=
  if verb = 'v' then fmtV v
  else if verb = 's' then
    match v with
    | .vStr s => s
    | _ => "%!s(" ++ goTypeName v ++ "=" ++ fmtV v ++ ")"
  else if verb = 'd' then
    match v with
    | .vInt n => toString n
    | _ => "%!d(" ++ goTypeName v ++ "=" ++ fmtV v ++ ")"
  else
    "%!" ++ String.singleton verb ++ "(" ++ goTypeName v ++ "=" ++ fmtV v ++ ")"

/-- The scanning loop of `fmt.Sprintf` over the format's characters:
literals pass through, `%%` prints `%`, a verb consumes the next operand
(`%!verb(MISSING)` when none is left), a trailing `%` prints
`%!(NOVERB)`, and leftover operands are reported via `extraSuffix`. -/
def goSprintfAux : List Char → List FieldVal → String
  | [], args => extraSuffix args
  | ['%'], args => "%!(NOVERB)" ++ extraSuffix args
  | '%' :: c :: rest, args =>
    if c = '%' then "%" ++ goSprintfAux rest args
    else
      match args with
      | [] => "%!" ++ String.singleton c ++ "(MISSING)" ++ goSprintfAux rest []
      | a :: as => applyVerb c a ++ goSprintfAux rest as
  | c :: rest, args => String.singleton c ++ goSprintfAux rest args

/-- `fmt.Sprintf(format, args...)` for the format fragment this package
uses. -/
def goSprintf (format : String) (args : List FieldVal) : String :=
  goSprintfAux format.toList args

/-- `(*RestClient).ResolveURL`:
`fmt.Sprintf("%s%s", c.BaseURL, fmt.Sprintf(path, args...))`. -/
def RestClient.ResolveURL (c : RestClient) (path : String) (args : List FieldVal) : String :=
  c.BaseURL ++ goSprintf path args

example : (NewRestClient "r" false).ResolveURL "/api/v1/users/%s" [.vStr "u1"] =
    "/api/v1/users/u1" := by decide


/-- Split a character list at every occurrence of `sep` (the single-character
instances of `strings.Split` this model needs). -/
def splitOnChar (sep : Char) : List Char → List (List Char)
  | [] => [[]]
  | c :: rest =>
    if c = sep then
      [] :: splitOnChar sep rest
    else
      match splitOnChar sep rest with
      | [] => [[c]]
      | part :: parts => (c :: part) :: parts

/-- The fragment of `net/url.URL` this package touches: everything up to the
first `?` kept opaque in `base`, plus the raw query string. -/
structure URL where
  base : String
  RawQuery : String
deriving DecidableEq, Repr

/-- `url.Parse` restricted to that fragment: strip a `#fragment`, then cut at
the first `?`; the raw query is everything after it, verbatim. -/
def parseURL (rawurl : String) : URL :=
  let beforeFrag :=
    match splitOnChar '#' rawurl.data with
    | [] => []
    | part :: _ => part
  match splitOnChar '?' beforeFrag with
  | [] => { base := "", RawQuery := "" }
  | part :: parts =>
    { base := String.mk part,
      RawQuery := String.intercalate "?" (parts.map String.mk) }

/-- The fragment of `http.Request` the package reads or writes: method,
URL, headers and the JSON body, if any. Header keys appear here exactly as
the strings passed to `Header.Set` (the names used in this package are
already in MIME-canonical form). -/
structure Request where
  Method : String
  URL : URL
  Header : List (String × String)
  Body : Option String
deriving DecidableEq, Repr

/-- `http.Header.Set`: replace the value under the key, or append the pair
when the key is new. -/
def headerSet (h : List (String × String)) (k v : String) : List (String × String) :=
  match h with
  | [] => [(k, v)]
  | (k', v') :: rest =>
    if k' = k then (k, v) :: rest else (k', v') :: headerSet rest k v

/-- `http.Header.Get`. -/
def headerGet (h : List (String × String)) (k : String) : Option String :=
  match h with
  | [] => none
  | (k', v) :: rest => if k' = k then some v else headerGet rest k

/-- Set one header on a request. -/
def Request.setHeader (r : Request) (k v : String) : Request :=
  { r with Header := headerSet r.Header k v }

/-- `http.NewRequest` in the modelled fragment: parse the URL and attach the
body; its URL-validation failures are outside the URL fragment modelled
here. -/
def newRequest (method url : String) (body : Option String) : Request :=
  { Method := method, URL := parseURL url, Header := [], Body := body }

/-- Result of running one request modifier: the mutated request, or the
propagated panic. -/
inductive ModResult where
  | ok (req : Request)
  | panicked (msg : String)
deriving DecidableEq, Repr

/-- A request modifier, `func(req *http.Request)`; the result records the
mutation, or a panic. -/
def Modifier : Type :=
  Request → ModResult

/-- What a verb method does up to the `http.DefaultClient.Do` call: the
request it hands to `Do`, an error returned early, or a panic raised by a
modifier. -/
inductive BuildResult where
  | dispatch (req : Request)
  | err (msg : String)
  | panicked (msg : String)
deriving DecidableEq, Repr

/-- The `for _, modifier := range requestModifier` loop, followed by
dispatch. -/
def applyMods : List Modifier → Request → BuildResult
  | [], req => .dispatch req
  | m :: ms, req =>
    match m req with
    | .ok req' => applyMods ms req'
    | .panicked msg => .panicked msg

/-- JSON string literal for `encoding/json` output, with the two escapes the
modelled character set needs. -/
def jsonString (s : String) : String :=
  "\"" ++
    String.join (s.data.map (fun c =>
      if c = '"' then "\\\"" else if c = '\\' then "\\\\" else String.singleton c)) ++
    "\""

/-- `encoding/json` rendering of a scalar. -/
def jsonOfVal : FieldVal → String
  | .vStr s => jsonString s
  | .vInt n => toString n
  | .vBool b => cond b "true" "false"

/-- `json.Marshal` over the modelled value universe: scalars, `null` for a
nil pointer, dereferenced pointers, and objects listing the exported fields
under their identifiers. None of these shapes can make `json.Marshal`
fail, so the `Except` error branch is never produced, matching Go. -/
def jsonMarshal : GoData → Except String String
  | .prim v => .ok (jsonOfVal v)
  | .ptr none => .ok "null"
  | .ptr (some g) => jsonMarshal g
  | .struct fields =>
    .ok ("\x7b" ++
      String.intercalate ","
        ((fields.filter (fun f => goExported f.name)).map
          (fun f => jsonString f.name ++ ":" ++ jsonOfVal f.val)) ++ "\x7d")

/-- `(*RestClient).GET`: build a body-less GET, run the modifiers, dispatch. -/
def RestClient.GET (c : RestClient) (url : String) (mods : List Modifier) : BuildResult :=
  let _ := c
  applyMods mods (newRequest "GET" url none)

/-- `(*RestClient).DELETE`: build a body-less DELETE, run the modifiers,
dispatch. -/
def RestClient.DELETE (c : RestClient) (url : String) (mods : List Modifier) : BuildResult :=
  let _ := c
  applyMods mods (newRequest "DELETE" url none)

/-- `(*RestClient).POST`: marshal the body (returning the error on failure),
build the request, set `Content-Type: application/json`, run the modifiers,
dispatch. -/
def RestClient.POST (c : RestClient) (url : String) (body : GoData)
    (mods : List Modifier) : BuildResult :=
  let _ := c
  match jsonMarshal body with
  | .error e => .err e
  | .ok bodyData =>
    applyMods mods
      ((newRequest "POST" url (some bodyData)).setHeader "Content-Type" "application/json")

/-- `(*RestClient).PUT`: same pipeline as POST with method PUT. -/
def RestClient.PUT (c : RestClient) (url : String) (body : GoData)
    (mods : List Modifier) : BuildResult :=
  let _ := c
  match jsonMarshal body with
  | .error e => .err e
  | .ok bodyData =>
    applyMods mods
      ((newRequest "PUT" url (some bodyData)).setHeader "Content-Type" "application/json")

/-- `(*RestClient).PATCH`: same pipeline as POST with method PATCH. -/
def RestClient.PATCH (c : RestClient) (url : String) (body : GoData)
    (mods : List Modifier) : BuildResult :=
  let _ := c
  match jsonMarshal body with
  | .error e => .err e
  | .ok bodyData =>
    applyMods mods
      ((newRequest "PATCH" url (some bodyData)).setHeader "Content-Type" "application/json")

/-- `QueryParameterRequestModifier`: encode the data with
`StructToQueryParams`, panic on its error (`error creating query
parameters: ...`), otherwise append the encoding to `req.URL.RawQuery` by
`+=`. -/
def QueryParameterRequestModifier (queryParams : GoData) : Modifier :=
  fun req =>
    match StructToQueryParams queryParams with
    | .ok params =>
      .ok { req with URL := { req.URL with RawQuery := req.URL.RawQuery ++ params } }
    | .err _ msg => .panicked ("error creating query parameters: " ++ msg)
    | .panicked msg => .panicked msg

/-- `url.Values.Get` after `url.ParseQuery`, for raw queries without
percent-escapes (the only ones the claims evaluate): the value of the first
`key=value` pair with that key, cutting each pair at its first `=`. -/
def queryGet (raw key : String) : Option String :=
  ((splitOnChar '&' raw.data).filterMap (fun pair =>
    match splitOnChar '=' pair with
    | [] => none
    | k :: rest =>
      if String.mk k = key then
        some (String.intercalate "=" (rest.map String.mk))
      else none)).head?

example :
    (NewRestClient "r" false).POST "http://h/x" (.prim (.vStr "b"))
      [QueryParameterRequestModifier (.struct [⟨"Param", "", .vStr "value"⟩])] =
    .dispatch
      { Method := "POST",
        URL := { base := "http://h/x", RawQuery := "param=value" },
        Header := [("Content-Type", "application/json")],
        Body := some "\"b\"" } := by decide

example : queryGet "param=value" "param" = some "value" := by decide

lemma valuesAdd_not_mem (acc : List (String × List String)) (k v : String)
    (h : k ∉ acc.map Prod.fst) : valuesAdd acc k v = acc ++ [(k, [v])] := by
  induction acc with
  | nil => rfl
  | cons p rest ih =>
    simp only [List.map_cons, List.mem_cons] at h
    push_neg at h
    obtain ⟨h1, h2⟩ := h
    obtain ⟨k', vs⟩ := p
    simp only [valuesAdd]
    rw [if_neg (fun hk => h1 hk.symm)]
    simp [ih h2]

lemma structLoop_no_tags (fields : List GoField) (acc : List (String × List String))
    (hexp : ∀ f ∈ fields, goExported f.name = true)
    (htag : ∀ f ∈ fields, f.tag = "")
    (hfresh : ∀ f ∈ fields, goToLower f.name ∉ acc.map Prod.fst)
    (hnd : (fields.map (fun f => goToLower f.name)).Nodup) :
    structLoop fields acc =
      QueryResult.ok
        (valuesEncode (acc ++ fields.map (fun f => (goToLower f.name, [fmtV f.val])))) := by
  induction fields generalizing acc with
  | nil => simp [structLoop]
  | cons f fs ih =>
    have hf : goExported f.name = true := hexp f (List.mem_cons_self f fs)
    have ht : f.tag = "" := htag f (List.mem_cons_self f fs)
    have hnd2 : (∀ x ∈ fs, ¬goToLower x.name = goToLower f.name) ∧
        (fs.map (fun g => goToLower g.name)).Nodup := by simpa using hnd
    simp only [structLoop, ht, if_pos rfl, hf, if_true]
    rw [valuesAdd_not_mem acc _ _ (hfresh f (List.mem_cons_self f fs))]
    have hexp2 : ∀ g ∈ fs, goExported g.name = true :=
      fun g hg => hexp g (List.mem_cons_of_mem f hg)
    have htag2 : ∀ g ∈ fs, g.tag = "" :=
      fun g hg => htag g (List.mem_cons_of_mem f hg)
    have hfresh2 : ∀ g ∈ fs,
        goToLower g.name ∉ (acc ++ [(goToLower f.name, [fmtV f.val])]).map Prod.fst := by
      intro g hg
      simp only [List.map_append, List.mem_append]
      push_neg
      refine ⟨hfresh g (List.mem_cons_of_mem f hg), ?_⟩
      simp only [List.map_cons, List.map_nil, List.mem_singleton]
      exact hnd2.1 g hg
    rw [ih (acc ++ [(goToLower f.name, [fmtV f.val])]) hexp2 htag2 hfresh2 hnd2.2]
    simp [List.append_assoc]

lemma insertByKey_map {α β : Type} (g : α → β) (keyA : α → String) (keyB : β → String)
    (hkey : ∀ a, keyB (g a) = keyA a) (x : α) (l : List α) :
    (insertByKey keyA x l).map g = insertByKey keyB (g x) (l.map g) := by
  induction l with
  | nil => rfl
  | cons y ys ih =>
    simp only [insertByKey, List.map_cons, hkey]
    by_cases h : strLe (keyA x) (keyA y)
    · simp [h]
    · simp [h, ih]

lemma sortByKey_map {α β : Type} (g : α → β) (keyA : α → String) (keyB : β → String)
    (hkey : ∀ a, keyB (g a) = keyA a) (l : List α) :
    (sortByKey keyA l).map g = sortByKey keyB (l.map g) := by
  induction l with
  | nil => rfl
  | cons y ys ih =>
    simp only [sortByKey, List.map_cons]
    rw [insertByKey_map g keyA keyB hkey, ih]

lemma mem_insertByKey {α : Type} (key : α → String) (x y : α) (l : List α) :
    y ∈ insertByKey key x l ↔ y = x ∨ y ∈ l := by
  induction l with
  | nil => simp [insertByKey]
  | cons z zs ih =>
    simp only [insertByKey]
    by_cases h : strLe (key x) (key z)
    · simp [h]
    · rw [if_neg h]
      simp only [List.mem_cons, ih]
      tauto

lemma mem_sortByKey {α : Type} (key : α → String) (y : α) (l : List α) :
    y ∈ sortByKey key l ↔ y ∈ l := by
  induction l with
  | nil => simp [sortByKey]
  | cons z zs ih =>
    simp only [sortByKey, mem_insertByKey, List.mem_cons, ih]

lemma flatten_singletons {α β : Type} (h : α → β) (l : List α) :
    (l.map (fun x => [h x])).flatten = l.map h := by
  induction l with
  | nil => rfl
  | cons x xs ih => simp [ih]

/-- C1: for every struct value whose exported fields carry no explicit
query-key annotation (with distinct lower-cased identifiers that query
escaping leaves unchanged), `StructToQueryParams` succeeds and returns the
`key=value` pairs joined by `&` with no leading `?`, each key the
lower-cased field identifier, each value the percent-encoded `%v` rendering
of the field value, ordered alphabetically by key. -/
theorem structToQueryParams_plain_fields_sorted (fields : List GoField)
    (hexp : ∀ f ∈ fields, goExported f.name = true)
    (htag : ∀ f ∈ fields, f.tag = "")
    (hnd : (fields.map (fun f => goToLower f.name)).Nodup)
    (hkey : ∀ f ∈ fields, queryEscape (goToLower f.name) = goToLower f.name) :
    StructToQueryParams (.struct fields) =
      QueryResult.ok (String.intercalate "&"
        ((sortByKey Prod.fst (fields.map (fun f => (goToLower f.name, fmtV f.val)))).map
          (fun p => p.1 ++ "=" ++ queryEscape p.2))) := by
  have hfresh : ∀ f ∈ fields,
      goToLower f.name ∉ (([] : List (String × List String)).map Prod.fst) := by simp
  have h0 : StructToQueryParams (.struct fields) = structLoop fields [] := rfl
  rw [h0, structLoop_no_tags fields [] hexp htag hfresh hnd]
  congr 1
  rw [List.nil_append]
  have hmap : fields.map (fun f => (goToLower f.name, [fmtV f.val])) =
      (fields.map (fun f => (goToLower f.name, fmtV f.val))).map
        (fun p => (p.1, [p.2])) := by
    rw [List.map_map]
    rfl
  rw [hmap]
  unfold valuesEncode
  rw [← sortByKey_map (fun p : String × String => (p.1, [p.2])) Prod.fst Prod.fst
      (fun a => rfl)]
  rw [List.map_map]
  have hcomp : ((fun p : String × List String =>
        p.2.map (fun v => queryEscape p.1 ++ "=" ++ queryEscape v)) ∘
        (fun p : String × String => (p.1, [p.2]))) =
      fun p : String × String => [queryEscape p.1 ++ "=" ++ queryEscape p.2] := by
    funext p
    rfl
  rw [hcomp, flatten_singletons]
  congr 1
  apply List.map_congr_left
  intro p hp
  rw [mem_sortByKey] at hp
  obtain ⟨f, hf, rfl⟩ := List.mem_map.mp hp
  simp only [hkey f hf]

/-- Witness for C1 at the spec's example `{Name:"john", Age:25}`. -/
theorem structToQueryParams_plain_fields_sorted_witness :
    StructToQueryParams
      (.struct [⟨"Name", "", .vStr "john"⟩, ⟨"Age", "", .vInt 25⟩]) =
      QueryResult.ok "age=25&name=john" := by
  have h := structToQueryParams_plain_fields_sorted
    [⟨"Name", "", .vStr "john"⟩, ⟨"Age", "", .vInt 25⟩]
    (by decide) (by decide) (by decide) (by decide)
  rw [h]
  decide

/-- C4: on any input that is not a struct — a primitive scalar such as a
string, directly or behind a pointer — `StructToQueryParams` returns the
`input data must be a struct` error with an empty returned string (no
partial output). -/
theorem structToQueryParams_non_struct_error (v : FieldVal) :
    StructToQueryParams (.prim v) =
      QueryResult.err "" "input data must be a struct" ∧
    StructToQueryParams (.ptr (some (.prim v))) =
      QueryResult.err "" "input data must be a struct" :=
  ⟨rfl, rfl⟩

/-- C9: `StructToQueryParams` is not total on structs: as soon as the field
loop reaches an unexported (lower-case-named) field, `reflect.Value.Interface`
panics instead of producing a field or an error value. -/
theorem structToQueryParams_unexported_panics (fields : List GoField)
    (h : ∃ f ∈ fields, goExported f.name = false) :
    StructToQueryParams (.struct fields) = QueryResult.panicked interfacePanicMsg := by
  have h0 : StructToQueryParams (.struct fields) = structLoop fields [] := rfl
  rw [h0]
  clear h0
  generalize ([] : List (String × List String)) = acc
  induction fields generalizing acc with
  | nil =>
    obtain ⟨f, hf, _⟩ := h
    exact absurd hf (List.not_mem_nil f)
  | cons f fs ih =>
    obtain ⟨g, hg, hge⟩ := h
    simp only [structLoop]
    by_cases hf : goExported f.name
    · rw [if_pos hf]
      rcases List.mem_cons.mp hg with hgf | hgs
      · rw [hgf] at hge
        rw [hf] at hge
        exact Bool.noConfusion hge
      · exact ih ⟨g, hgs, hge⟩ _
    · rw [if_neg hf]

/-- Witness for C9: a struct whose single field `name` is unexported makes
`StructToQueryParams` panic. -/
theorem structToQueryParams_unexported_panics_witness :
    StructToQueryParams (.struct [⟨"name", "", .vStr "x"⟩]) =
      QueryResult.panicked interfacePanicMsg :=
  structToQueryParams_unexported_panics [⟨"name", "", .vStr "x"⟩]
    ⟨⟨"name", "", .vStr "x"⟩, by decide⟩

/-- C10: a pointer to a struct is dereferenced and encoded exactly as the
struct itself, and a nil struct pointer is rejected with the same
non-struct error instead of panicking. -/
theorem structToQueryParams_pointer_deref (fields : List GoField) :
    StructToQueryParams (.ptr (some (.struct fields))) =
      StructToQueryParams (.struct fields) ∧
    StructToQueryParams (.ptr none) =
      QueryResult.err "" "input data must be a struct" :=
  ⟨rfl, rfl⟩

/-- C2: a second initialization of an already-initialized client — through
`init` directly, `WithConfigProvider`, or the `OnReady` callback registered
by `autoInit` — panics with `Client already initialized` for every resolver,
and in particular never succeeds and is never silently ignored. -/
theorem init_second_call_panics (c : RestClient) (p : Provider)
    (h : c.ready = true) :
    c.init p = InitResult.panicked "Client already initialized" ∧
    c.WithConfigProvider p = InitResult.panicked "Client already initialized" ∧
    autoInitCallback c p = InitResult.panicked "Client already initialized" ∧
    (∀ c', c.init p ≠ InitResult.ok c') := by
  have hinit : c.init p = InitResult.panicked "Client already initialized" := by
    simp [RestClient.init, h]
  refine ⟨hinit, hinit, hinit, fun c' hc => ?_⟩
  rw [hinit] at hc
  exact InitResult.noConfusion hc

/-- Witness for C2: re-initializing a ready client panics even though the
second resolver would have succeeded. -/
theorem init_second_call_panics_witness :
    RestClient.init
      { BaseURL := "http://example.com", resourceName := "resource", ready := true }
      (fun _ _ => Except.ok "http://other.com") =
      InitResult.panicked "Client already initialized" :=
  (init_second_call_panics
    { BaseURL := "http://example.com", resourceName := "resource", ready := true }
    (fun _ _ => Except.ok "http://other.com") rfl).1

/-- C3: before initialization the base URL is the empty string, and a
successful initialization on a fresh client stores the resolver's address
lower-cased with one trailing `/` stripped, marking the client ready. -/
theorem init_sets_baseURL_normalized (c : RestClient) (p : Provider) (addr : String)
    (hready : c.ready = false)
    (haddr : p c.resourceName "rest" = Except.ok addr) :
    c.init p =
      InitResult.ok { c with BaseURL := goTrimSuffix (goToLower addr) "/", ready := true } ∧
    (∀ name autoInit, (NewRestClient name autoInit).BaseURL = "") := by
  constructor
  · simp [RestClient.init, hready, serviceType, haddr]
  · intro name autoInit
    rfl

/-- Witness for C3 at the spec's example: a resolver returning
`HTTP://Example.com/` yields base URL `http://example.com`. -/
theorem init_sets_baseURL_normalized_witness :
    (NewRestClient "resource" false).init (fun _ _ => Except.ok "HTTP://Example.com/") =
      InitResult.ok
        { BaseURL := "http://example.com", resourceName := "resource", ready := true } := by
  have h := init_sets_baseURL_normalized (NewRestClient "resource" false)
    (fun _ _ => Except.ok "HTTP://Example.com/") "HTTP://Example.com/" rfl rfl
  rw [h.1]
  decide

/-- C7: initialization consults the resolver only at
`(resourceName, "rest")`; a resolver error there makes `init` panic with the
`Error getting service address` message — the error is never returned and no
ready client is produced. -/
theorem init_resolver_error_fatal (c : RestClient) (p : Provider)
    (hready : c.ready = false) :
    (∀ q : Provider, q c.resourceName "rest" = p c.resourceName "rest" →
      c.init q = c.init p) ∧
    (∀ e, p c.resourceName "rest" = Except.error e →
      c.init p =
        InitResult.panicked
          ("Error getting service address for " ++ c.resourceName ++ ": " ++ e) ∧
      ∀ c', c.init p ≠ InitResult.ok c') := by
  constructor
  · intro q hq
    simp only [RestClient.init, hready, if_false, Bool.false_eq_true]
    rw [show q c.resourceName serviceType = p c.resourceName serviceType from hq]
  · intro e he
    have hpan : c.init p =
        InitResult.panicked
          ("Error getting service address for " ++ c.resourceName ++ ": " ++ e) := by
      simp [RestClient.init, hready, serviceType, he]
    refine ⟨hpan, fun c' hc => ?_⟩
    rw [hpan] at hc
    exact InitResult.noConfusion hc

/-- Witness for C7: a resolver failing with `boom` on the fresh client
`resource` makes initialization panic with the propagated message. -/
theorem init_resolver_error_fatal_witness :
    (NewRestClient "resource" false).init (fun _ _ => Except.error "boom") =
      InitResult.panicked "Error getting service address for resource: boom" := by
  have h := (init_resolver_error_fatal (NewRestClient "resource" false)
    (fun _ _ => Except.error "boom") rfl).2 "boom" rfl
  rw [h.1]
  decide

/-- C8: `ResolveURL` concatenates the printf-formatted path onto the base
URL; it never inspects the readiness flag, so on an uninitialized client the
result is the formatted path prefixed by the empty base. -/
theorem resolveURL_concat_no_ready_check :
    (∀ c path args, RestClient.ResolveURL c path args = c.BaseURL ++ goSprintf path args) ∧
    (∀ base name name' r r' path args,
      RestClient.ResolveURL ⟨base, name, r⟩ path args =
        RestClient.ResolveURL ⟨base, name', r'⟩ path args) ∧
    (∀ name autoInit path args,
      RestClient.ResolveURL (NewRestClient name autoInit) path args =
        goSprintf path args) ∧
    RestClient.ResolveURL ⟨"http://example.com", "r", true⟩
        "/api/v1/users/%s/%d" [.vStr "u1", .vInt 7] =
      "http://example.com/api/v1/users/u1/7" ∧
    RestClient.ResolveURL (NewRestClient "r" false)
        "/api/v1/users/%s" [.vStr "u1"] =
      "/api/v1/users/u1" := by
  refine ⟨fun c path args => rfl, fun base name name' r r' path args => rfl,
    fun name autoInit path args => ?_, by decide, by decide⟩
  show "" ++ goSprintf path args = goSprintf path args
  simp

/-- C5: the modifier returned by `QueryParameterRequestModifier` appends the
query encoding of its data to the request's existing raw query by plain
string concatenation; on a request with no existing query and data
`{Param:"value"}` the resulting query parameter `param` is `value`, and on a
request that already has a query the concatenation lacks a `&` separator. -/
theorem queryParameterRequestModifier_appends (data : GoData) (req : Request)
    (params : String) (h : StructToQueryParams data = QueryResult.ok params) :
    QueryParameterRequestModifier data req =
      ModResult.ok
        { req with URL := { req.URL with RawQuery := req.URL.RawQuery ++ params } } ∧
    QueryParameterRequestModifier (.struct [⟨"Param", "", .vStr "value"⟩])
        (newRequest "GET" "http://h/path" none) =
      ModResult.ok
        { Method := "GET", URL := { base := "http://h/path", RawQuery := "param=value" },
          Header := [], Body := none } ∧
    queryGet "param=value" "param" = some "value" ∧
    QueryParameterRequestModifier (.struct [⟨"Param", "", .vStr "value"⟩])
        { Method := "GET", URL := { base := "b", RawQuery := "a=1" },
          Header := [], Body := none } =
      ModResult.ok
        { Method := "GET", URL := { base := "b", RawQuery := "a=1param=value" },
          Header := [], Body := none } := by
  refine ⟨?_, by decide, by decide, by decide⟩
  simp [QueryParameterRequestModifier, h]

/-- Witness for C5: appending `{Name:"john", Age:25}` to a request with an
empty raw query gives the raw query `age=25&name=john`. -/
theorem queryParameterRequestModifier_appends_witness :
    QueryParameterRequestModifier
        (.struct [⟨"Name", "", .vStr "john"⟩, ⟨"Age", "", .vInt 25⟩])
        (newRequest "GET" "http://h/p" none) =
      ModResult.ok
        { Method := "GET", URL := { base := "http://h/p", RawQuery := "age=25&name=john" },
          Header := [], Body := none } := by
  have h := (queryParameterRequestModifier_appends
    (.struct [⟨"Name", "", .vStr "john"⟩, ⟨"Age", "", .vInt 25⟩])
    (newRequest "GET" "http://h/p" none) "age=25&name=john" (by decide)).1
  rw [h]
  decide

/-- C6: POST, PUT and PATCH set `Content-Type: application/json` on the
request before running the caller-supplied modifiers, run the modifiers in
the order supplied, and a modifier can therefore override the content type
(or any other default header) on the dispatched request. -/
theorem post_put_patch_json_header_then_mods (c : RestClient) (url : String)
    (body : GoData) (mods : List Modifier) (bodyData : String)
    (h : jsonMarshal body = Except.ok bodyData) :
    c.POST url body mods =
      applyMods mods
        ((newRequest "POST" url (some bodyData)).setHeader
          "Content-Type" "application/json") ∧
    c.PUT url body mods =
      applyMods mods
        ((newRequest "PUT" url (some bodyData)).setHeader
          "Content-Type" "application/json") ∧
    c.PATCH url body mods =
      applyMods mods
        ((newRequest "PATCH" url (some bodyData)).setHeader
          "Content-Type" "application/json") ∧
    headerGet
        ((newRequest "POST" url (some bodyData)).setHeader
          "Content-Type" "application/json").Header "Content-Type" =
      some "application/json" ∧
    (∀ (m : Modifier) (ms : List Modifier) (req : Request),
      applyMods (m :: ms) req =
        match m req with
        | .ok req' => applyMods ms req'
        | .panicked msg => BuildResult.panicked msg) ∧
    (∀ ct, c.POST url body [fun r => ModResult.ok (r.setHeader "Content-Type" ct)] =
      BuildResult.dispatch
        (((newRequest "POST" url (some bodyData)).setHeader
          "Content-Type" "application/json").setHeader "Content-Type" ct)) ∧
    (∀ ct, headerGet
        (((newRequest "POST" url (some bodyData)).setHeader
          "Content-Type" "application/json").setHeader "Content-Type" ct).Header
        "Content-Type" = some ct) := by
  refine ⟨?_, ?_, ?_, ?_, ?_, ?_, ?_⟩
  · simp [RestClient.POST, h]
  · simp [RestClient.PUT, h]
  · simp [RestClient.PATCH, h]
  · simp [newRequest, Request.setHeader, headerSet, headerGet]
  · intro m ms req
    rfl
  · intro ct
    simp [RestClient.POST, h, applyMods, Request.setHeader]
  · intro ct
    simp [newRequest, Request.setHeader, headerSet, headerGet]

/-- Witness for C6: a modifier on POST overrides the default JSON content
type with `text/plain` on the dispatched request. -/
theorem post_put_patch_json_header_then_mods_witness :
    (NewRestClient "r" false).POST "http://h/x" (.prim (.vStr "b"))
        [fun r => ModResult.ok (r.setHeader "Content-Type" "text/plain")] =
      BuildResult.dispatch
        { Method := "POST", URL := { base := "http://h/x", RawQuery := "" },
          Header := [("Content-Type", "text/plain")], Body := some "\"b\"" } := by
  have h := (post_put_patch_json_header_then_mods (NewRestClient "r" false) "http://h/x"
    (.prim (.vStr "b")) [] "\"b\"" rfl).2.2.2.2.2.1 "text/plain"
  rw [h]
  decide
